import Mathlib

/-!
Verification of the MERN voting application backend
(`backend/routes/elections.js`, `backend/routes/auth.js`,
`backend/models/Election.js`, `backend/models/Vote.js`).

Shallow embedding conventions:
* Mongo ObjectIds are abstract `Nat` identifiers; the string well-formedness
  check (`mongoose.Types.ObjectId.isValid`) is outside the embedding.
* JavaScript `Date` values are integers (milliseconds since epoch), compared
  with the usual integer order, exactly as `Date` comparison behaves.
* A Mongo collection is a `List` of records; `findOne`/`findById` is
  `List.find?`, `deleteMany` is `List.filter`, `findByIdAndUpdate` maps the
  matching record.
* `results.sort((a, b) => b.votes - a.votes)` is `List.mergeSort` with the
  comparator `b.votes ≤ a.votes` (descending by votes).
* Percentages are exact rationals (`ℚ`) rather than IEEE doubles.
-/

namespace MernVoting

/-- The three stored/derived election status labels. -/
inductive Status where
  | upcoming
  | active
  | completed
deriving DecidableEq, Repr

/-- An embedded candidate of an election (`candidateSchema`). -/
structure Candidate where
  id : Nat
  name : String
  party : String
  bio : String
deriving DecidableEq, Repr

/-- An election document (`electionSchema`). -/
structure Election where
  id : Nat
  title : String
  description : String
  startDate : Int
  endDate : Int
  status : Status
  candidates : List Candidate
deriving DecidableEq, Repr

/-- A vote document (`voteSchema`): references to election, voter and
candidate. -/
structure Vote where
  election : Nat
  voter : Nat
  candidate : Nat
deriving DecidableEq, Repr

/-- Modelled from the spec: "effective status = upcoming if now < start;
completed if now > end; else active".  This is the spec-side definition used
to compare against the code-side status substitution. -/
def effectiveStatusSpec (now start endD : Int) : Status :=
  if now < start then .upcoming
  else if now > endD then .completed
  else .active

/-- Status substitution performed by `GET /` and `GET /:id`: start from the
stored status and overwrite it from the current date (the stored value is
dead in every branch, exactly as in the code). -/
def deriveStatus (now : Int) (e : Election) : Status :=
  let status := e.status
  let status := if now < e.startDate then Status.upcoming
    else if now > e.endDate then Status.completed
    else Status.active
  status

/-- Route `GET /` (list elections): sort by start date descending, substitute the
derived status into each returned object. -/
def getElections (elections : List Election) (now : Int) : List Election :=
  let sorted := elections.mergeSort (fun a b => b.startDate ≤ a.startDate)
  sorted.map (fun e => { e with status := deriveStatus now e })

/-- Outcome of `GET /:id`. -/
inductive GetElectionOutcome where
  | notFound
  | ok (e : Election)
deriving DecidableEq, Repr

/-- Route `GET /:id` (get election by id): find the election, substitute the
derived status. -/
def getElectionById (elections : List Election) (now : Int) (eid : Nat) :
    GetElectionOutcome :=
  match elections.find? (fun e => e.id == eid) with
  | none => .notFound
  | some e => .ok { e with status := deriveStatus now e }

/-- One output row of `GET /:id/results`: candidate details, vote count and
percentage. -/
structure ResultRow where
  candidate : Candidate
  votes : Nat
  percentage : ℚ
deriving DecidableEq, Repr

/-- The response body of a successful `GET /:id/results`. -/
structure ResultsResponse where
  electionId : Nat
  title : String
  description : String
  totalVotes : Nat
  results : List ResultRow
  winners : List Candidate
  isTie : Bool
  endDate : Int
  lastUpdated : Int
deriving DecidableEq, Repr

/-- Outcome of `GET /:id/results`. -/
inductive ResultsOutcome where
  | notFound
  | notYetAvailable (endDate : Int)
  | ok (r : ResultsResponse)
deriving DecidableEq, Repr

/-- Number of votes of the given election cast for the given candidate id
(the content of the `voteMap` entry, `voteMap.get(id) || 0`). -/
def countVotesFor (evotes : List Vote) (cid : Nat) : Nat :=
  (evotes.filter (fun v => v.candidate == cid)).length

/-- The result row built for one candidate: vote count from the vote map and
percentage `votes / totalVotes * 100` (0 when `totalVotes` is 0). -/
def resultRowFor (evotes : List Vote) (totalVotes : Nat) (c : Candidate) :
    ResultRow :=
  let n := countVotesFor evotes c.id
  { candidate := c, votes := n,
    percentage :=
      if totalVotes > 0 then (n : ℚ) / (totalVotes : ℚ) * 100 else 0 }

/-- Body of a successful `GET /:id/results` for the found election `e`:
per-candidate counts, percentages, descending sort, winners = rows with the
maximum count, tie flag. -/
def resultsResponseFor (e : Election) (votes : List Vote) (now : Int)
    (eid : Nat) : ResultsResponse :=
  let evotes := votes.filter (fun v => v.election == eid)
  let totalVotes := evotes.length
  let results := e.candidates.map (resultRowFor evotes totalVotes)
  let sortedResults := results.mergeSort (fun a b => b.votes ≤ a.votes)
  let maxVotes := (sortedResults.map (fun r => r.votes)).foldr max 0
  let winners :=
    (sortedResults.filter (fun r => r.votes == maxVotes)).map
      (fun r => r.candidate)
  { electionId := e.id, title := e.title,
    description := e.description, totalVotes := totalVotes,
    results := sortedResults, winners := winners,
    isTie := winners.length > 1, endDate := e.endDate,
    lastUpdated := now }

/-- Route `GET /:id/results`: results are only available once the election is
completed (`now > endDate`). -/
def getResults (elections : List Election) (votes : List Vote) (now : Int)
    (eid : Nat) : ResultsOutcome :=
  match elections.find? (fun e => e.id == eid) with
  | none => .notFound
  | some e =>
    if now > e.endDate then .ok (resultsResponseFor e votes now eid)
    else .notYetAvailable e.endDate

/-- Modelled from the spec: "the maximum vote count over all candidates of
the election" — spec-side quantity compared against the maximum the code
computes over the sorted rows. -/
def maxCountOverCandidates (e : Election) (evotes : List Vote) : Nat :=
  (e.candidates.map (fun c => countVotesFor evotes c.id)).foldr max 0

/-- Outcome of `DELETE /:id`.  The success payload mirrors the response
body: the deleted election id and the number of deleted votes. -/
inductive DeleteOutcome where
  | notFound
  | conflictActive (startDate endDate : Int)
  | conflictCompleted (endDate : Int)
  | success (deletedElectionId : Nat) (deletedVotesCount : Nat)
deriving DecidableEq, Repr

/-- Route `DELETE /:id`: refuse active (`now ≥ start ∧ now ≤ end`) and completed
(`now > end`) elections; otherwise delete the election's votes
(`Vote.deleteMany`), then the election (`findByIdAndDelete`), and report the
deleted-votes count. -/
def deleteElection (elections : List Election) (votes : List Vote)
    (now : Int) (eid : Nat) :
    DeleteOutcome × List Election × List Vote :=
  match elections.find? (fun e => e.id == eid) with
  | none => (.notFound, elections, votes)
  | some e =>
    if now ≥ e.startDate ∧ now ≤ e.endDate then
      (.conflictActive e.startDate e.endDate, elections, votes)
    else if now > e.endDate then
      (.conflictCompleted e.endDate, elections, votes)
    else
      let deletedVotesCount := (votes.filter (fun v => v.election == eid)).length
      let votes' := votes.filter (fun v => !(v.election == eid))
      let elections' := elections.filter (fun x => !(x.id == eid))
      (.success eid deletedVotesCount, elections', votes')

/-- A candidate object in the body of `PUT /:id`: name/party/bio plus an
optional `_id` (kept when re-supplied, freshly generated otherwise).  Absent
or empty text fields are both modelled as `""` (JavaScript falsiness). -/
structure CandidateInput where
  id : Option Nat
  name : String
  party : String
  bio : String
deriving DecidableEq, Repr

/-- The body of a `PUT /:id` request.  `startDate`/`endDate` are `none` when
the field is absent or unparseable (`new Date(...)` yields `NaN`);
`candidates` is `none` when the candidate list is omitted. -/
structure UpdateReq where
  title : String
  description : String
  startDate : Option Int
  endDate : Option Int
  candidates : Option (List CandidateInput)
deriving DecidableEq, Repr

/-- Outcome of `PUT /:id`. -/
inductive UpdateOutcome where
  | notFound
  | conflictCompleted (endDate : Int)
  | conflictActive (startDate endDate : Int)
  | invalidDateFormat
  | invalidDateRange
  | invalidCandidates
  | ok (e : Election)
deriving DecidableEq, Repr

/-- A candidate in the `PUT /:id` body has all three text fields
non-falsy. -/
def candidateFieldsValid (c : CandidateInput) : Bool :=
  !(c.name == "") && !(c.party == "") && !(c.bio == "")

/-- The candidate list written by `PUT /:id`: keep a re-supplied `_id`,
otherwise assign a fresh identifier (`nextId + position`). -/
def updatedCandidates (cs : List CandidateInput) (nextId : Nat) :
    List Candidate :=
  cs.enum.map (fun p =>
    { id := p.2.id.getD (nextId + p.1), name := p.2.name,
      party := p.2.party, bio := p.2.bio })

/-- Route `PUT /:id`: refuse completed (`now > end`) and active
(`now ≥ start ∧ now ≤ end`) elections; require parseable dates with
`end > start`; when a candidate list is supplied it must have ≥ 2 entries
with non-empty name/party/bio; then `$set` title, description, dates and —
only when supplied — candidates. -/
def updateElection (elections : List Election) (now : Int) (eid : Nat)
    (req : UpdateReq) (nextId : Nat) : UpdateOutcome × List Election :=
  match elections.find? (fun e => e.id == eid) with
  | none => (.notFound, elections)
  | some e =>
    if now > e.endDate then (.conflictCompleted e.endDate, elections)
    else if now ≥ e.startDate ∧ now ≤ e.endDate then
      (.conflictActive e.startDate e.endDate, elections)
    else
      match req.startDate, req.endDate with
      | some s, some en =>
        if en ≤ s then (.invalidDateRange, elections)
        else if req.candidates.any (fun cs => cs.length < 2) then
          (.invalidCandidates, elections)
        else if req.candidates.any
            (fun cs => !(cs.all candidateFieldsValid)) then
          (.invalidCandidates, elections)
        else
          let e' : Election :=
            { e with
              title := req.title, description := req.description,
              startDate := s, endDate := en,
              candidates := match req.candidates with
                | none => e.candidates
                | some cs => updatedCandidates cs nextId }
          (.ok e', elections.map (fun x => if x.id == eid then e' else x))
      | _, _ => (.invalidDateFormat, elections)

/-- Outcome of `POST /:id/vote`.  `serverError` is the generic 500 the catch
block produces for any error that is not a `CastError` — including the
duplicate-key error raised by the unique `(election, voter)` index. -/
inductive VoteOutcome where
  | success
  | notFound
  | notActive
  | invalidCandidate
  | alreadyVoted
  | serverError
deriving DecidableEq, Repr

/-- The read-only phase of `POST /:id/vote`: find the election, check the
voting window, check the candidate, and run the `Vote.findOne` pre-check.
Returns the early error, or `none` when the handler proceeds to insert. -/
def castVoteCheck (elections : List Election) (votes : List Vote)
    (now : Int) (eid cid voter : Nat) : Option VoteOutcome :=
  match elections.find? (fun e => e.id == eid) with
  | none => some .notFound
  | some e =>
    if now < e.startDate ∨ now > e.endDate then some .notActive
    else
      match e.candidates.find? (fun c => c.id == cid) with
      | none => some .invalidCandidate
      | some _ =>
        match votes.find? (fun r => r.election == eid && r.voter == voter) with
        | some _ => some .alreadyVoted
        | none => none

/-- The insert phase (`vote.save()`): the storage layer's unique
`(election, voter)` index rejects a duplicate atomically; the handler's
catch block turns that rejection into the generic server error, not into
AlreadyVoted. -/
def castVoteInsert (votes : List Vote) (eid cid voter : Nat) :
    VoteOutcome × List Vote :=
  match votes.find? (fun r => r.election == eid && r.voter == voter) with
  | some _ => (.serverError, votes)
  | none =>
    (.success, votes ++ [{ election := eid, voter := voter, candidate := cid }])

/-- The full sequential `POST /:id/vote` handler: check phase, then insert
phase. -/
def castVote (elections : List Election) (votes : List Vote) (now : Int)
    (eid cid voter : Nat) : VoteOutcome × List Vote :=
  match castVoteCheck elections votes now eid cid voter with
  | some o => (o, votes)
  | none => castVoteInsert votes eid cid voter

/-- Resume a request after its check phase: an early error returns without
touching the store, otherwise the insert phase runs. -/
def finishReq (chk : Option VoteOutcome) (votes : List Vote)
    (eid cid voter : Nat) : VoteOutcome × List Vote :=
  match chk with
  | some o => (o, votes)
  | none => castVoteInsert votes eid cid voter

/-- The six interleavings of two two-step (check, insert) cast-vote
requests A and B: the letters give the order of the four steps, e.g.
`abab` is A-check, B-check, A-insert, B-insert. -/
inductive Sched where
  | aabb
  | abab
  | abba
  | baab
  | baba
  | bbaa
deriving DecidableEq, Repr

/-- Run two cast-vote requests for the same election and voter (A voting
for `cidA`, B for `cidB`) under the given interleaving.  Check steps only
read the vote store, insert steps read and write it; the result is
(A's outcome, B's outcome, final vote store). -/
def runTwo (sched : Sched) (elections : List Election) (votes0 : List Vote)
    (now : Int) (eid cidA cidB voter : Nat) :
    VoteOutcome × VoteOutcome × List Vote :=
  match sched with
  | .aabb =>
    let rA := castVote elections votes0 now eid cidA voter
    let rB := castVote elections rA.2 now eid cidB voter
    (rA.1, rB.1, rB.2)
  | .abab =>
    let chkA := castVoteCheck elections votes0 now eid cidA voter
    let chkB := castVoteCheck elections votes0 now eid cidB voter
    let rA := finishReq chkA votes0 eid cidA voter
    let rB := finishReq chkB rA.2 eid cidB voter
    (rA.1, rB.1, rB.2)
  | .abba =>
    let chkA := castVoteCheck elections votes0 now eid cidA voter
    let chkB := castVoteCheck elections votes0 now eid cidB voter
    let rB := finishReq chkB votes0 eid cidB voter
    let rA := finishReq chkA rB.2 eid cidA voter
    (rA.1, rB.1, rA.2)
  | .baab =>
    let chkB := castVoteCheck elections votes0 now eid cidB voter
    let chkA := castVoteCheck elections votes0 now eid cidA voter
    let rA := finishReq chkA votes0 eid cidA voter
    let rB := finishReq chkB rA.2 eid cidB voter
    (rA.1, rB.1, rB.2)
  | .baba =>
    let chkB := castVoteCheck elections votes0 now eid cidB voter
    let chkA := castVoteCheck elections votes0 now eid cidA voter
    let rB := finishReq chkB votes0 eid cidB voter
    let rA := finishReq chkA rB.2 eid cidA voter
    (rA.1, rB.1, rA.2)
  | .bbaa =>
    let rB := castVote elections votes0 now eid cidB voter
    let rA := castVote elections rB.2 now eid cidA voter
    (rA.1, rB.1, rA.2)

/-- User roles. -/
inductive Role where
  | voter
  | admin
deriving DecidableEq, Repr

/-- A user document.  The password stands for its salted hash (hashing is
delegated); `comparePassword` is equality on it. -/
structure User where
  id : Nat
  fullName : String
  email : String
  voterID : String
  password : String
  age : Nat
  phone : Option String
  role : Role
  isVerified : Bool
  isActive : Bool
deriving DecidableEq, Repr

/-- Modelled from the spec: the User schema (`backend/models/User.js`) is
not among the sources; per the spec, "Age ≥ 18 and ≤ 120 enforced on
registration and profile update", so the schema's age validators reject any
age outside [18, 120] when a document is saved or updated with
validators. -/
def userAgeValid (age : Nat) : Bool :=
  18 ≤ age && age ≤ 120

/-- The body of `POST /register`. -/
structure RegisterReq where
  fullName : String
  email : String
  voterID : String
  password : String
  age : Nat
deriving DecidableEq, Repr

/-- Outcome of `POST /register`.  A schema validation failure raised by
`user.save()` lands in the generic catch (500 server error). -/
inductive RegisterOutcome where
  | conflictDuplicate
  | created
  | serverError
deriving DecidableEq, Repr

/-- Route `POST /register`: reject when email or voterID is already taken, then
save the new user (active, auto-verified, role voter); the spec-modelled
schema rejects an out-of-range age at save time. -/
def register (users : List User) (req : RegisterReq) (newId : Nat) :
    RegisterOutcome × List User :=
  if users.any (fun u => u.email == req.email || u.voterID == req.voterID)
  then (.conflictDuplicate, users)
  else if userAgeValid req.age then
    (.created, users ++
      [{ id := newId, fullName := req.fullName, email := req.email,
         voterID := req.voterID, password := req.password, age := req.age,
         phone := none, role := .voter, isVerified := true,
         isActive := true }])
  else (.serverError, users)

/-- Result of `POST /login`: an HTTP failure (status, message) or a token
for the user. -/
inductive LoginResult where
  | failure (status : Nat) (message : String)
  | success (userId : Nat) (role : Role)
deriving DecidableEq, Repr

/-- Route `POST /login`: find by voterID; no user → invalid credentials; inactive
→ account deleted; password mismatch → invalid credentials; unverified in
production → verify first; else success. -/
def login (users : List User) (voterID password : String)
    (production : Bool) : LoginResult :=
  match users.find? (fun u => u.voterID == voterID) with
  | none => .failure 400 "Invalid credentials"
  | some u =>
    if !u.isActive then .failure 403 "Account has been deleted"
    else if !(u.password == password) then
      .failure 400 "Invalid credentials"
    else if !u.isVerified && production then
      .failure 401 "Please verify your email before logging in"
    else .success u.id u.role

/-- The body of `PUT /profile`; `none` = field absent (mongoose strips
undefined values from `$set`). -/
structure ProfileReq where
  fullName : Option String
  email : Option String
  phone : Option String
  age : Option Nat
  voterID : Option String
deriving DecidableEq, Repr

/-- The route's truthiness age guard `age && (age < 18 || age > 120)`:
an absent or zero age skips the guard. -/
def ageRouteInvalid (a? : Option Nat) : Bool :=
  match a? with
  | none => false
  | some a => !(a == 0) && (decide (a < 18) || decide (a > 120))

/-- The phone guard `^\+?[1-9]\d{9,14}$`: optional plus, a leading nonzero
digit, then 9 to 14 further digits. -/
def phoneFormatValid (p : String) : Bool :=
  let cs := p.toList
  let cs := match cs with
    | '+' :: rest => rest
    | other => other
  match cs with
  | [] => false
  | d :: rest =>
    ('1' ≤ d && d ≤ '9') && decide (9 ≤ rest.length) &&
      decide (rest.length ≤ 14) &&
      rest.all (fun c => '0' ≤ c && c ≤ '9')

/-- Does another user already hold one of the supplied email/voterID
values? (`$or` over the supplied fields, `$ne` the caller.) -/
def matchesEmailOrVoterID (u : User) (req : ProfileReq) : Bool :=
  req.email.any (fun em => u.email == em) ||
    req.voterID.any (fun vid => u.voterID == vid)

/-- Outcome of `PUT /profile`. -/
inductive ProfileOutcome where
  | invalidAge
  | invalidPhone
  | conflictInUse
  | notFoundUser
  | validationFailed
  | ok (u : User)
deriving DecidableEq, Repr

/-- Route `PUT /profile`: route guards on age and phone, uniqueness check against
other users, then `findByIdAndUpdate` with `$set` of the supplied fields
and `runValidators` (spec-modelled schema: age must be in range). -/
def updateProfile (users : List User) (uid : Nat) (req : ProfileReq) :
    ProfileOutcome × List User :=
  if ageRouteInvalid req.age then (.invalidAge, users)
  else if req.phone.any (fun p => !(phoneFormatValid p)) then
    (.invalidPhone, users)
  else if users.any (fun u => !(u.id == uid) && matchesEmailOrVoterID u req)
  then (.conflictInUse, users)
  else
    match users.find? (fun u => u.id == uid) with
    | none => (.notFoundUser, users)
    | some u =>
      if req.age.any (fun a => !(userAgeValid a)) then
        (.validationFailed, users)
      else
        let u' : User :=
          { u with
            fullName := req.fullName.getD u.fullName,
            email := req.email.getD u.email,
            phone := match req.phone with
              | none => u.phone
              | some p => some p,
            age := req.age.getD u.age,
            voterID := req.voterID.getD u.voterID }
        (.ok u', users.map (fun x => if x.id == uid then u' else x))

/-- Outcome of the two deactivation routes. -/
inductive DeactivateOutcome where
  | notFoundUser
  | forbidden
  | okDeactivated
deriving DecidableEq, Repr

/-- Route `POST /deactivate` (self-service): clear the caller's active flag.  The
route has no role check. -/
def deactivateSelf (users : List User) (uid : Nat) :
    DeactivateOutcome × List User :=
  match users.find? (fun u => u.id == uid) with
  | none => (.notFoundUser, users)
  | some _ =>
    (.okDeactivated,
      users.map (fun x =>
        if x.id == uid then { x with isActive := false } else x))

/-- Route `POST /voters/:id/deactivate` (admin): refuse admin targets, otherwise
clear the target's active flag. -/
def deactivateVoterByAdmin (users : List User) (targetId : Nat) :
    DeactivateOutcome × List User :=
  match users.find? (fun u => u.id == targetId) with
  | none => (.notFoundUser, users)
  | some voter =>
    if voter.role == .admin then (.forbidden, users)
    else
      (.okDeactivated,
        users.map (fun x =>
          if x.id == targetId then { x with isActive := false } else x))

/-! Sample data used to instantiate the theorems on concrete inputs. -/

/-- Sample candidate A. -/
def sampleCandidateA : Candidate :=
  { id := 1, name := "A", party := "PartyA", bio := "bioA" }

/-- Sample candidate B. -/
def sampleCandidateB : Candidate :=
  { id := 2, name := "B", party := "PartyB", bio := "bioB" }

/-- A sample election with window [0, 100]; the stored status is the stale
`upcoming` so reads must recompute it. -/
def sampleElection : Election :=
  { id := 1, title := "E", description := "d", startDate := 0,
    endDate := 100, status := .upcoming,
    candidates := [sampleCandidateA, sampleCandidateB] }

/-- A sample upcoming election with window [200, 300] and a stale stored
`active` status. -/
def sampleUpcoming : Election :=
  { id := 2, title := "U", description := "d", startDate := 200,
    endDate := 300, status := .active,
    candidates := [sampleCandidateA, sampleCandidateB] }

/-- Two sample votes in election 1: one for each candidate. -/
def sampleVotes : List Vote :=
  [Vote.mk 1 100 1, Vote.mk 1 101 2]

/-- The view of `sampleElection` that Get-by-id returns at time 250. -/
def sampleElectionCompletedView : Election :=
  { sampleElection with status := .completed }

/-- A sample admin account. -/
def sampleAdmin : User :=
  { id := 1, fullName := "Admin", email := "a@x", voterID := "ADM1",
    password := "pw", age := 30, phone := none, role := .admin,
    isVerified := true, isActive := true }

/-- A sample deactivated voter account. -/
def sampleInactiveUser : User :=
  { id := 2, fullName := "Bob", email := "b@x", voterID := "V1",
    password := "pw", age := 30, phone := none, role := .voter,
    isVerified := true, isActive := false }

/-- A sample active voter account. -/
def sampleActiveUser : User :=
  { id := 3, fullName := "Eve", email := "e@x", voterID := "V9",
    password := "pw", age := 30, phone := none, role := .voter,
    isVerified := true, isActive := true }

/-- A sample registration request. -/
def sampleRegisterReq : RegisterReq :=
  { fullName := "Carol", email := "c@x", voterID := "V2",
    password := "pw", age := 25 }

/-- A sample profile update request changing only the age. -/
def sampleProfileReq : ProfileReq :=
  { fullName := none, email := none, phone := none, age := some 40,
    voterID := none }

/-- A sample election update request that omits the candidate list. -/
def sampleUpdateReq : UpdateReq :=
  { title := "T2", description := "D2", startDate := some 210,
    endDate := some 310, candidates := none }

section Theorems

/-- C2: every election returned by List or Get-by-id carries the status
recomputed from the current time — upcoming when now < startDate, completed
when now > endDate, otherwise active — regardless of the stored status
field. -/
theorem listGet_status_time_derived (elections : List Election) (now : Int) :
    (∀ e ∈ getElections elections now,
      e.status = effectiveStatusSpec now e.startDate e.endDate) ∧
    (∀ eid e, getElectionById elections now eid = .ok e →
      e.status = effectiveStatusSpec now e.startDate e.endDate) := by
  constructor
  · intro e he
    simp only [getElections, List.mem_map] at he
    obtain ⟨e₀, _, rfl⟩ := he
    simp [deriveStatus, effectiveStatusSpec]
  · intro eid e he
    simp only [getElectionById] at he
    cases hf : elections.find? (fun x => x.id == eid) with
    | none => rw [hf] at he; cases he
    | some e₀ =>
      rw [hf] at he
      cases he
      simp [deriveStatus, effectiveStatusSpec]

/-- Folding `max` over 0 is invariant under permutation. -/
theorem foldr_max_of_perm {l₁ l₂ : List Nat} (h : List.Perm l₁ l₂) :
    l₁.foldr max 0 = l₂.foldr max 0 := by
  induction h with
  | nil => rfl
  | cons x _ ih => simp [List.foldr_cons, ih]
  | swap x y l => simp [List.foldr_cons, Nat.max_left_comm]
  | trans _ _ ih₁ ih₂ => exact ih₁.trans ih₂

/-- Folding `max` over 0 on an all-zero list yields 0. -/
theorem foldr_max_eq_zero {l : List Nat} (h : ∀ x ∈ l, x = 0) :
    l.foldr max 0 = 0 := by
  induction l with
  | nil => rfl
  | cons a t ih =>
    simp only [List.foldr_cons]
    rw [h a (by simp), ih (fun x hx => h x (by simp [hx]))]
    rfl

/-- The maximum the code computes over the sorted rows equals the maximum
vote count over the candidate list. -/
theorem maxVotes_eq (cands : List Candidate) (evotes : List Vote) (t : Nat) :
    (((cands.map (resultRowFor evotes t)).mergeSort
        (fun a b => b.votes ≤ a.votes)).map (fun r => r.votes)).foldr max 0
      = (cands.map (fun c => countVotesFor evotes c.id)).foldr max 0 := by
  have hperm := (List.mergeSort_perm (cands.map (resultRowFor evotes t))
    (fun a b => b.votes ≤ a.votes)).map (fun r => r.votes)
  rw [foldr_max_of_perm hperm, List.map_map]
  rfl

/-- Membership in the winners list of a results response: exactly the
candidates whose count attains the maximum over all candidates. -/
theorem mem_winners_iff (e : Election) (votes : List Vote) (now : Int)
    (eid : Nat) (c : Candidate) :
    c ∈ (resultsResponseFor e votes now eid).winners ↔
      c ∈ e.candidates ∧
        countVotesFor (votes.filter (fun v => v.election == eid)) c.id
          = maxCountOverCandidates e
              (votes.filter (fun v => v.election == eid)) := by
  simp only [resultsResponseFor, maxCountOverCandidates]
  rw [maxVotes_eq]
  constructor
  · intro h
    simp only [List.mem_map, List.mem_filter, List.mem_mergeSort,
      beq_iff_eq] at h
    obtain ⟨r, ⟨⟨cd, hcd, rfl⟩, hv⟩, rfl⟩ := h
    exact ⟨hcd, hv⟩
  · rintro ⟨hc, hv⟩
    simp only [List.mem_map, List.mem_filter, List.mem_mergeSort,
      beq_iff_eq]
    exact ⟨resultRowFor (votes.filter (fun v => v.election == eid))
      (votes.filter (fun v => v.election == eid)).length c,
      ⟨⟨c, hc, rfl⟩, hv⟩, rfl⟩

/-- With no votes for the election, every sorted row has count 0 and every
row survives the winners filter, so there are as many winners as
candidates. -/
theorem winners_length_of_no_votes (e : Election) (votes : List Vote)
    (now : Int) (eid : Nat)
    (hev : votes.filter (fun v => v.election == eid) = []) :
    (resultsResponseFor e votes now eid).winners.length
      = e.candidates.length := by
  simp only [resultsResponseFor]
  rw [List.length_map, List.filter_eq_self.mpr, List.length_mergeSort,
    List.length_map]
  intro r hr
  rw [List.mem_mergeSort] at hr
  obtain ⟨cd, hcd, rfl⟩ := List.mem_map.mp hr
  have hmax : (((e.candidates.map (resultRowFor
      (votes.filter (fun v => v.election == eid))
      (votes.filter (fun v => v.election == eid)).length)).mergeSort
        (fun a b => b.votes ≤ a.votes)).map (fun r => r.votes)).foldr max 0
      = 0 := by
    apply foldr_max_eq_zero
    intro x hx
    obtain ⟨r, hrs, rfl⟩ := List.mem_map.mp hx
    rw [List.mem_mergeSort] at hrs
    obtain ⟨cd', _, rfl⟩ := List.mem_map.mp hrs
    simp [resultRowFor, countVotesFor, hev]
  rw [hmax]
  simp [resultRowFor, countVotesFor, hev]

/-- Reduction of a successful `getResults` call to its response body. -/
theorem getResults_ok_elim (elections : List Election) (votes : List Vote)
    (now : Int) (eid : Nat) (e : Election) (resp : ResultsResponse)
    (hfind : elections.find? (fun x => x.id == eid) = some e)
    (hok : getResults elections votes now eid = .ok resp) :
    resp = resultsResponseFor e votes now eid := by
  unfold getResults at hok
  rw [hfind] at hok
  simp only [] at hok
  split at hok
  · cases hok
    rfl
  · cases hok

/-- C3: the winners list of Compute results contains exactly every candidate
whose vote count equals the maximum vote count over all candidates of the
election, isTie holds iff there is more than one winner, and with zero total
votes every candidate wins and the result is a tie. -/
theorem results_winners_and_tie
    (elections : List Election) (votes : List Vote) (now : Int) (eid : Nat)
    (e : Election) (resp : ResultsResponse)
    (hfind : elections.find? (fun x => x.id == eid) = some e)
    (hcard : 2 ≤ e.candidates.length)
    (hok : getResults elections votes now eid = .ok resp) :
    (∀ c, c ∈ resp.winners ↔
       c ∈ e.candidates ∧
         countVotesFor (votes.filter (fun v => v.election == eid)) c.id
           = maxCountOverCandidates e
               (votes.filter (fun v => v.election == eid))) ∧
    (resp.isTie = true ↔ 1 < resp.winners.length) ∧
    (resp.totalVotes = 0 →
      (∀ c ∈ e.candidates, c ∈ resp.winners) ∧ resp.isTie = true) := by
  obtain rfl := getResults_ok_elim elections votes now eid e resp hfind hok
  refine ⟨fun c => mem_winners_iff e votes now eid c, ?_, ?_⟩
  · simp only [resultsResponseFor]
    simp [decide_eq_true_eq]
  · intro h0
    have hev : votes.filter (fun v => v.election == eid) = [] := by
      simp only [resultsResponseFor] at h0
      exact List.length_eq_zero.mp h0
    have hlen := winners_length_of_no_votes e votes now eid hev
    constructor
    · intro c hc
      refine (mem_winners_iff e votes now eid c).mpr ⟨hc, ?_⟩
      rw [hev]
      simp only [maxCountOverCandidates]
      rw [foldr_max_eq_zero]
      · rfl
      · intro x hx
        obtain ⟨cd, _, rfl⟩ := List.mem_map.mp hx
        rfl
    · simp only [resultsResponseFor] at hlen ⊢
      simp only [decide_eq_true_eq, gt_iff_lt]
      omega

/-- C4: Compute results outputs one row per candidate of the election (a
permutation of the per-candidate rows, zero-vote candidates included), each
row's percentage is votes / totalVotes × 100 (0 when totalVotes is 0), and
the rows are sorted by vote count in descending order. -/
theorem results_rows_complete_sorted
    (elections : List Election) (votes : List Vote) (now : Int) (eid : Nat)
    (e : Election) (resp : ResultsResponse)
    (hfind : elections.find? (fun x => x.id == eid) = some e)
    (hok : getResults elections votes now eid = .ok resp) :
    resp.results.length = e.candidates.length ∧
    resp.results.Perm (e.candidates.map
      (resultRowFor (votes.filter (fun v => v.election == eid))
        (votes.filter (fun v => v.election == eid)).length)) ∧
    (∀ r ∈ resp.results,
      r.percentage = if resp.totalVotes > 0
        then (r.votes : ℚ) / (resp.totalVotes : ℚ) * 100 else 0) ∧
    resp.results.Pairwise (fun a b => b.votes ≤ a.votes) := by
  obtain rfl := getResults_ok_elim elections votes now eid e resp hfind hok
  simp only [resultsResponseFor]
  refine ⟨?_, ?_, ?_, ?_⟩
  · rw [List.length_mergeSort, List.length_map]
  · exact List.mergeSort_perm _ _
  · intro r hr
    rw [List.mem_mergeSort] at hr
    obtain ⟨cd, _, rfl⟩ := List.mem_map.mp hr
    rfl
  · have hs := @List.sorted_mergeSort ResultRow
      (fun a b : ResultRow => decide (b.votes ≤ a.votes))
      (fun a b c hab hbc => by
        simp only [decide_eq_true_eq] at hab hbc ⊢
        omega)
      (fun a b => by
        simp only [Bool.or_eq_true, decide_eq_true_eq]
        omega)
      (e.candidates.map
        (resultRowFor (votes.filter (fun v => v.election == eid))
          (votes.filter (fun v => v.election == eid)).length))
    exact hs.imp (fun h => by simpa using h)

/-- C5: deleting an election whose effective status is active or completed
fails with the corresponding conflict and leaves elections and votes
untouched; deleting an upcoming election removes its votes and the election
and reports the deleted election id and deleted-votes count. -/
theorem deleteElection_conflict_or_cascade
    (elections : List Election) (votes : List Vote) (now : Int) (eid : Nat)
    (e : Election)
    (hfind : elections.find? (fun x => x.id == eid) = some e)
    (hinv : e.startDate < e.endDate) :
    (effectiveStatusSpec now e.startDate e.endDate = .active →
      deleteElection elections votes now eid
        = (.conflictActive e.startDate e.endDate, elections, votes)) ∧
    (effectiveStatusSpec now e.startDate e.endDate = .completed →
      deleteElection elections votes now eid
        = (.conflictCompleted e.endDate, elections, votes)) ∧
    (effectiveStatusSpec now e.startDate e.endDate = .upcoming →
      deleteElection elections votes now eid
        = (.success eid (votes.filter (fun v => v.election == eid)).length,
            elections.filter (fun x => !(x.id == eid)),
            votes.filter (fun v => !(v.election == eid)))) := by
  unfold deleteElection
  rw [hfind]
  simp only []
  refine ⟨?_, ?_, ?_⟩
  · intro h
    have hcond : now ≥ e.startDate ∧ now ≤ e.endDate := by
      simp only [effectiveStatusSpec] at h
      split_ifs at h with h1 h2 <;> first | omega | cases h
    rw [if_pos hcond]
  · intro h
    have hend : now > e.endDate := by
      simp only [effectiveStatusSpec] at h
      split_ifs at h with h1 h2 <;> first | omega | cases h
    rw [if_neg (by omega), if_pos hend]
  · intro h
    have hstart : now < e.startDate := by
      simp only [effectiveStatusSpec] at h
      split_ifs at h with h1 h2 <;> first | omega | cases h
    rw [if_neg (by omega), if_neg (by omega)]

/-- C6: updating an election whose effective status is active or completed
fails with the corresponding conflict and leaves the store unchanged; a
successful update with the candidate list omitted preserves the existing
candidates unchanged and modifies only title, description and the two
dates. -/
theorem updateElection_conflict_and_candidates_omit_safe
    (elections : List Election) (now : Int) (eid : Nat) (req : UpdateReq)
    (nextId : Nat) (e : Election)
    (hfind : elections.find? (fun x => x.id == eid) = some e)
    (hinv : e.startDate < e.endDate) :
    (effectiveStatusSpec now e.startDate e.endDate = .active →
      updateElection elections now eid req nextId
        = (.conflictActive e.startDate e.endDate, elections)) ∧
    (effectiveStatusSpec now e.startDate e.endDate = .completed →
      updateElection elections now eid req nextId
        = (.conflictCompleted e.endDate, elections)) ∧
    (∀ e', (updateElection elections now eid req nextId).1 = .ok e' →
      req.candidates = none →
      e'.candidates = e.candidates ∧ e'.id = e.id ∧ e'.status = e.status ∧
      e'.title = req.title ∧ e'.description = req.description ∧
      req.startDate = some e'.startDate ∧ req.endDate = some e'.endDate) := by
  refine ⟨?_, ?_, ?_⟩
  · intro h
    have hcond : e.startDate ≤ now ∧ now ≤ e.endDate := by
      simp only [effectiveStatusSpec] at h
      split_ifs at h with h1 h2 <;> first | omega | cases h
    unfold updateElection
    rw [hfind]
    simp only []
    rw [if_neg (by omega), if_pos (by omega)]
  · intro h
    have hend : e.endDate < now := by
      simp only [effectiveStatusSpec] at h
      split_ifs at h with h1 h2 <;> first | omega | cases h
    unfold updateElection
    rw [hfind]
    simp only []
    rw [if_pos (by omega)]
  · intro e' hok hcand
    unfold updateElection at hok
    rw [hfind] at hok
    rw [hcand] at hok
    simp only [Option.any] at hok
    cases hs : req.startDate with
    | none =>
      rw [hs] at hok
      split_ifs at hok <;> cases hok
    | some s =>
      cases he : req.endDate with
      | none =>
        rw [hs, he] at hok
        split_ifs at hok <;> cases hok
      | some en =>
        rw [hs, he] at hok
        simp only [] at hok
        split_ifs at hok <;> try cases hok
        exact ⟨rfl, rfl, rfl, rfl, rfl, rfl, rfl⟩

/-- C10: a `PUT /:id` request against an upcoming election that omits
startDate or endDate always fails with the invalid-date-format error and
leaves the election store unchanged — the dates, unlike the candidate list,
are not omit-safe. -/
theorem updateElection_dates_not_omit_safe
    (elections : List Election) (now : Int) (eid : Nat) (req : UpdateReq)
    (nextId : Nat) (e : Election)
    (hfind : elections.find? (fun x => x.id == eid) = some e)
    (hinv : e.startDate < e.endDate)
    (hup : now < e.startDate)
    (hmiss : req.startDate = none ∨ req.endDate = none) :
    updateElection elections now eid req nextId
      = (.invalidDateFormat, elections) := by
  unfold updateElection
  rw [hfind]
  simp only []
  rw [if_neg (by omega), if_neg (by omega)]
  rcases hmiss with hs | he
  · rw [hs]
  · cases hs2 : req.startDate with
    | none => rfl
    | some s => rw [he]

/-- The check phase proceeds (returns `none`) when the election is found,
the window is open, the candidate exists and no vote for the pair is
recorded. -/
theorem castVoteCheck_none
    (elections : List Election) (votes : List Vote) (now : Int)
    (eid cid voter : Nat) (e : Election)
    (hfind : elections.find? (fun x => x.id == eid) = some e)
    (hwin : e.startDate ≤ now ∧ now ≤ e.endDate)
    (hc : (e.candidates.find? (fun c => c.id == cid)).isSome = true)
    (hfresh : votes.find? (fun r => r.election == eid && r.voter == voter)
      = none) :
    castVoteCheck elections votes now eid cid voter = none := by
  unfold castVoteCheck
  rw [hfind]
  simp only []
  rw [if_neg (by omega)]
  obtain ⟨c, hc'⟩ := Option.isSome_iff_exists.mp hc
  rw [hc']
  simp only []
  rw [hfresh]

/-- The check phase reports AlreadyVoted when a vote for the pair is
already recorded. -/
theorem castVoteCheck_dup
    (elections : List Election) (votes : List Vote) (now : Int)
    (eid cid voter : Nat) (e : Election) (r : Vote)
    (hfind : elections.find? (fun x => x.id == eid) = some e)
    (hwin : e.startDate ≤ now ∧ now ≤ e.endDate)
    (hc : (e.candidates.find? (fun c => c.id == cid)).isSome = true)
    (hdup : votes.find? (fun x => x.election == eid && x.voter == voter)
      = some r) :
    castVoteCheck elections votes now eid cid voter
      = some .alreadyVoted := by
  unfold castVoteCheck
  rw [hfind]
  simp only []
  rw [if_neg (by omega)]
  obtain ⟨c, hc'⟩ := Option.isSome_iff_exists.mp hc
  rw [hc']
  simp only []
  rw [hdup]

/-- The insert phase succeeds and appends the vote when no duplicate is
stored. -/
theorem castVoteInsert_fresh (votes : List Vote) (eid cid voter : Nat)
    (hfresh : votes.find? (fun r => r.election == eid && r.voter == voter)
      = none) :
    castVoteInsert votes eid cid voter
      = (.success,
          votes ++ [{ election := eid, voter := voter, candidate := cid }]) := by
  unfold castVoteInsert
  rw [hfresh]

/-- The insert phase hits the unique-index duplicate-key error — surfaced
as the generic server error — when a vote for the pair is stored. -/
theorem castVoteInsert_dup (votes : List Vote) (eid cid voter : Nat)
    (r : Vote)
    (hdup : votes.find? (fun x => x.election == eid && x.voter == voter)
      = some r) :
    castVoteInsert votes eid cid voter = (.serverError, votes) := by
  unfold castVoteInsert
  rw [hdup]

/-- After appending the pair's vote to a store without one, `findOne` for
the pair finds it. -/
theorem find?_append_pair (votes : List Vote) (eid cid voter : Nat)
    (hfresh : votes.find? (fun r => r.election == eid && r.voter == voter)
      = none) :
    (votes ++ [Vote.mk eid voter cid]).find?
        (fun r => r.election == eid && r.voter == voter)
      = some (Vote.mk eid voter cid) := by
  rw [List.find?_append, hfresh]
  simp

/-- After appending the pair's vote to a store without one, the store holds
exactly one vote for the pair. -/
theorem filter_append_pair_length (votes : List Vote) (eid cid voter : Nat)
    (hfresh : votes.find? (fun r => r.election == eid && r.voter == voter)
      = none) :
    ((votes ++ [Vote.mk eid voter cid]).filter
        (fun r => r.election == eid && r.voter == voter)).length = 1 := by
  rw [List.filter_append]
  have h1 : votes.filter (fun r => r.election == eid && r.voter == voter)
      = [] :=
    List.filter_eq_nil_iff.mpr (List.find?_eq_none.mp hfresh)
  rw [h1]
  simp

/-- C1 (amended): with the election found, the window open and both
candidates valid — if a vote for (election, voter) already exists the
handler fails with AlreadyVoted; if none exists, then under every
interleaving of two concurrent cast-vote requests for the same
(election, voter) exactly one succeeds, the other fails with AlreadyVoted
or with the generic server error produced by the unique-index duplicate-key
rejection, and the final store holds exactly one vote for the pair. -/
theorem castVote_at_most_once
    (elections : List Election) (votes0 : List Vote) (now : Int)
    (eid cidA cidB voter : Nat) (e : Election)
    (hfind : elections.find? (fun x => x.id == eid) = some e)
    (hwin : e.startDate ≤ now ∧ now ≤ e.endDate)
    (hcA : (e.candidates.find? (fun c => c.id == cidA)).isSome = true)
    (hcB : (e.candidates.find? (fun c => c.id == cidB)).isSome = true) :
    (∀ r, votes0.find? (fun x => x.election == eid && x.voter == voter)
        = some r →
      castVote elections votes0 now eid cidA voter
        = (.alreadyVoted, votes0)) ∧
    (votes0.find? (fun x => x.election == eid && x.voter == voter) = none →
      ∀ sched,
        (((runTwo sched elections votes0 now eid cidA cidB voter).1
            = .success ∧
          ((runTwo sched elections votes0 now eid cidA cidB voter).2.1
              = .alreadyVoted ∨
           (runTwo sched elections votes0 now eid cidA cidB voter).2.1
              = .serverError)) ∨
         ((runTwo sched elections votes0 now eid cidA cidB voter).2.1
            = .success ∧
          ((runTwo sched elections votes0 now eid cidA cidB voter).1
              = .alreadyVoted ∨
           (runTwo sched elections votes0 now eid cidA cidB voter).1
              = .serverError))) ∧
        ((runTwo sched elections votes0 now eid cidA cidB voter).2.2.filter
            (fun r => r.election == eid && r.voter == voter)).length
          = 1) := by
  constructor
  · intro r hdup
    unfold castVote
    rw [castVoteCheck_dup elections votes0 now eid cidA voter e r hfind
      hwin hcA hdup]
  · intro hfresh sched
    have chkA := castVoteCheck_none elections votes0 now eid cidA voter e
      hfind hwin hcA hfresh
    have chkB := castVoteCheck_none elections votes0 now eid cidB voter e
      hfind hwin hcB hfresh
    have insA := castVoteInsert_fresh votes0 eid cidA voter hfresh
    have insB := castVoteInsert_fresh votes0 eid cidB voter hfresh
    have hdupA := find?_append_pair votes0 eid cidA voter hfresh
    have hdupB := find?_append_pair votes0 eid cidB voter hfresh
    have insDupB := castVoteInsert_dup (votes0 ++ [Vote.mk eid voter cidA])
      eid cidB voter (Vote.mk eid voter cidA) hdupA
    have insDupA := castVoteInsert_dup (votes0 ++ [Vote.mk eid voter cidB])
      eid cidA voter (Vote.mk eid voter cidB) hdupB
    have chkB1 := castVoteCheck_dup elections
      (votes0 ++ [Vote.mk eid voter cidA]) now eid cidB voter e
      (Vote.mk eid voter cidA) hfind hwin hcB hdupA
    have chkA1 := castVoteCheck_dup elections
      (votes0 ++ [Vote.mk eid voter cidB]) now eid cidA voter e
      (Vote.mk eid voter cidB) hfind hwin hcA hdupB
    have lenA := filter_append_pair_length votes0 eid cidA voter hfresh
    have lenB := filter_append_pair_length votes0 eid cidB voter hfresh
    cases sched with
    | aabb =>
      simp only [runTwo, castVote, chkA, insA, chkB1]
      exact ⟨Or.inl ⟨trivial, Or.inl trivial⟩, lenA⟩
    | abab =>
      simp only [runTwo, finishReq, chkA, chkB, insA, insDupB]
      exact ⟨Or.inl ⟨trivial, Or.inr trivial⟩, lenA⟩
    | abba =>
      simp only [runTwo, finishReq, chkA, chkB, insB, insDupA]
      exact ⟨Or.inr ⟨trivial, Or.inr trivial⟩, lenB⟩
    | baab =>
      simp only [runTwo, finishReq, chkA, chkB, insA, insDupB]
      exact ⟨Or.inl ⟨trivial, Or.inr trivial⟩, lenA⟩
    | baba =>
      simp only [runTwo, finishReq, chkA, chkB, insB, insDupA]
      exact ⟨Or.inr ⟨trivial, Or.inr trivial⟩, lenB⟩
    | bbaa =>
      simp only [runTwo, castVote, chkB, insB, chkA1]
      exact ⟨Or.inr ⟨trivial, Or.inl trivial⟩, lenB⟩

/-- C7: every user record created by Register or modified by Update profile
has age within [18, 120] (for an age-omitting profile update the age kept
is the stored one), and each operation rejects an out-of-range age without
touching the store. -/
theorem age_range_enforced
    (users : List User) (req : RegisterReq) (newId uid : Nat)
    (preq : ProfileReq) :
    (∀ u ∈ (register users req newId).2,
      u ∈ users ∨ (18 ≤ u.age ∧ u.age ≤ 120)) ∧
    ((register users req newId).1 = .created →
      18 ≤ req.age ∧ req.age ≤ 120) ∧
    (∀ u', (updateProfile users uid preq).1 = .ok u' →
      (∀ a, preq.age = some a → u'.age = a ∧ 18 ≤ a ∧ a ≤ 120) ∧
      (preq.age = none → ∀ u,
        users.find? (fun x => x.id == uid) = some u → u'.age = u.age)) ∧
    (∀ a, preq.age = some a → ¬ (18 ≤ a ∧ a ≤ 120) →
      (updateProfile users uid preq).2 = users ∧
      ∀ u', (updateProfile users uid preq).1 ≠ .ok u') := by
  refine ⟨?_, ?_, ?_, ?_⟩
  · intro u hu
    unfold register at hu
    split_ifs at hu with h1 h2
    · exact Or.inl hu
    · rcases List.mem_append.mp hu with h | h
      · exact Or.inl h
      · right
        simp only [List.mem_singleton] at h
        subst h
        simp only [userAgeValid, Bool.and_eq_true, decide_eq_true_eq] at h2
        exact h2
    · exact Or.inl hu
  · intro hc
    unfold register at hc
    split_ifs at hc with h1 h2
    simp only [userAgeValid, Bool.and_eq_true, decide_eq_true_eq] at h2
    exact h2
  · intro u' hok
    unfold updateProfile at hok
    split_ifs at hok with h1 h2 h3 h4
    · cases hf : users.find? (fun u => u.id == uid) with
      | none => rw [hf] at hok; cases hok
      | some u => rw [hf] at hok; cases hok
    · cases hf : users.find? (fun u => u.id == uid) with
      | none => rw [hf] at hok; cases hok
      | some u =>
        rw [hf] at hok
        simp only [] at hok
        cases hok
        constructor
        · intro a ha
          have hv : userAgeValid a = true := by
            rw [ha] at h4
            simp only [Option.any_some, Bool.not_eq_true] at h4
            cases hva : userAgeValid a
            · rw [hva] at h4
              simp at h4
            · rfl
          simp only [userAgeValid, Bool.and_eq_true,
            decide_eq_true_eq] at hv
          exact ⟨by simp [ha], hv.1, hv.2⟩
        · intro ha u₀ hf₀
          cases hf₀
          simp [ha]
  · intro a ha hbad
    have hv : ¬ (userAgeValid a = true) := by
      simp only [userAgeValid, Bool.and_eq_true, decide_eq_true_eq]
      exact hbad
    have hfalse : userAgeValid a = false := by
      cases hva : userAgeValid a
      · rfl
      · exact absurd hva hv
    have hany : preq.age.any (fun x => !(userAgeValid x)) = true := by
      rw [ha]
      simp [Option.any, hfalse]
    unfold updateProfile
    split_ifs with h1 h2 h3
    · exact ⟨rfl, fun u' h => by cases h⟩
    · exact ⟨rfl, fun u' h => by cases h⟩
    · exact ⟨rfl, fun u' h => by cases h⟩
    · cases hf : users.find? (fun u => u.id == uid) with
      | none =>
        exact ⟨rfl, fun u' h => by cases h⟩
      | some u =>
        simp [hany]

/-- C8 (amended): the admin-on-target deactivation path refuses admin
targets and leaves the store unchanged, but the self-service path clears
the active flag of any existing account — including admin accounts. -/
theorem deactivation_admin_protection
    (users : List User) (uid : Nat) (u : User)
    (hfind : users.find? (fun x => x.id == uid) = some u) :
    (u.role = .admin →
      deactivateVoterByAdmin users uid = (.forbidden, users)) ∧
    ((deactivateSelf users uid).1 = .okDeactivated ∧
     ∀ x ∈ (deactivateSelf users uid).2, x.id = uid →
       x.isActive = false) := by
  refine ⟨?_, ?_, ?_⟩
  · intro hrole
    unfold deactivateVoterByAdmin
    rw [hfind]
    simp only []
    rw [if_pos (by simp [hrole])]
  · unfold deactivateSelf
    rw [hfind]
  · intro x hx hxid
    unfold deactivateSelf at hx
    rw [hfind] at hx
    simp only [] at hx
    obtain ⟨y, hy, rfl⟩ := List.mem_map.mp hx
    by_cases hyid : (y.id == uid) = true
    · simp [hyid]
    · rw [if_neg hyid] at hxid ⊢
      exact absurd (beq_iff_eq.mpr hxid) hyid

/-- C9 (amended): a login with a voter identifier matching no account and a
login against an active account with a non-matching password return the
identical InvalidCredentials failure (same status, same message). -/
theorem login_enumeration_resistance
    (users₁ users₂ : List User) (vid₁ pw₁ vid₂ pw₂ : String)
    (env₁ env₂ : Bool) (u : User)
    (h1 : users₁.find? (fun x => x.voterID == vid₁) = none)
    (h2 : users₂.find? (fun x => x.voterID == vid₂) = some u)
    (hact : u.isActive = true)
    (hpw : u.password ≠ pw₂) :
    login users₁ vid₁ pw₁ env₁ = .failure 400 "Invalid credentials" ∧
    login users₂ vid₂ pw₂ env₂ = .failure 400 "Invalid credentials" := by
  constructor
  · unfold login
    rw [h1]
  · unfold login
    rw [h2]
    simp only []
    rw [if_neg (by simp [hact]), if_pos (by simp [hpw])]

/-- Witness for C1: on a store already holding the pair's vote, the handler
fails with AlreadyVoted. -/
theorem castVote_at_most_once_witness :
    castVote [sampleElection] [Vote.mk 1 7 1] 50 1 1 7
      = (.alreadyVoted, [Vote.mk 1 7 1]) :=
  (castVote_at_most_once [sampleElection] [Vote.mk 1 7 1] 50 1 1 2 7
    sampleElection (by decide) (by decide) (by decide) (by decide)).1
    (Vote.mk 1 7 1) (by decide)

/-- Counterexample for C1 as stated: under the interleaving where both
pre-checks pass before either insert, the loser receives the generic server
error, not AlreadyVoted. -/
theorem castVote_race_counterexample :
    (runTwo .abab [sampleElection] [] 50 1 1 2 7).1 = .success ∧
    (runTwo .abab [sampleElection] [] 50 1 1 2 7).2.1 = .serverError ∧
    (runTwo .abab [sampleElection] [] 50 1 1 2 7).2.1 ≠ .alreadyVoted := by
  decide

/-- Witness for C2: at time 250 the Get-by-id view of the sample election
carries the recomputed (completed) status. -/
theorem listGet_status_time_derived_witness :
    sampleElectionCompletedView.status
      = effectiveStatusSpec 250 sampleElectionCompletedView.startDate
          sampleElectionCompletedView.endDate :=
  (listGet_status_time_derived [sampleElection] 250).2 1
    sampleElectionCompletedView (by decide)

/-- Witness for C3: on the sample completed election the tie flag agrees
with having more than one winner. -/
theorem results_winners_and_tie_witness :
    ((resultsResponseFor sampleElection sampleVotes 200 1).isTie = true ↔
      1 < (resultsResponseFor sampleElection sampleVotes 200 1).winners.length) :=
  (results_winners_and_tie [sampleElection] sampleVotes 200 1 sampleElection
    (resultsResponseFor sampleElection sampleVotes 200 1)
    (by decide) (by decide) rfl).2.1

/-- Witness for C4: the sample results carry one row per candidate. -/
theorem results_rows_complete_sorted_witness :
    (resultsResponseFor sampleElection sampleVotes 200 1).results.length
      = sampleElection.candidates.length :=
  (results_rows_complete_sorted [sampleElection] sampleVotes 200 1
    sampleElection (resultsResponseFor sampleElection sampleVotes 200 1)
    (by decide) rfl).1

/-- Witness for C5: deleting the sample upcoming election at time 50
succeeds, cascades and reports the counts. -/
theorem deleteElection_conflict_or_cascade_witness :
    deleteElection [sampleUpcoming] [] 50 2 = (.success 2 0, [], []) :=
  (deleteElection_conflict_or_cascade [sampleUpcoming] [] 50 2
    sampleUpcoming (by decide) (by decide)).2.2 (by decide)

/-- Witness for C6: updating the sample election while it is active fails
with the conflict and leaves the store unchanged. -/
theorem updateElection_conflict_witness :
    updateElection [sampleElection] 50 1 sampleUpdateReq 100
      = (.conflictActive 0 100, [sampleElection]) :=
  (updateElection_conflict_and_candidates_omit_safe [sampleElection] 50 1
    sampleUpdateReq 100 sampleElection (by decide) (by decide)).1 (by decide)

/-- Witness for C10: updating the sample upcoming election with both dates
omitted fails with the invalid-date-format error. -/
theorem updateElection_dates_not_omit_safe_witness :
    updateElection [sampleUpcoming] 50 2
        { title := "T", description := "D", startDate := none,
          endDate := none, candidates := none } 100
      = (.invalidDateFormat, [sampleUpcoming]) :=
  updateElection_dates_not_omit_safe [sampleUpcoming] 50 2
    { title := "T", description := "D", startDate := none,
      endDate := none, candidates := none } 100 sampleUpcoming
    (by decide) (by decide) (by decide) (Or.inl rfl)

/-- Witness for C7: the sample registration is created and its age lies in
the admissible range. -/
theorem age_range_enforced_witness :
    (register [] sampleRegisterReq 5).1 = .created ∧
    (18 ≤ sampleRegisterReq.age ∧ sampleRegisterReq.age ≤ 120) :=
  ⟨by decide,
    (age_range_enforced [] sampleRegisterReq 5 1 sampleProfileReq).2.1
      (by decide)⟩

/-- Witness for C8 (amended): the admin-on-target path refuses the sample
admin target. -/
theorem deactivation_admin_protection_witness :
    deactivateVoterByAdmin [sampleAdmin] 1 = (.forbidden, [sampleAdmin]) :=
  (deactivation_admin_protection [sampleAdmin] 1 sampleAdmin
    (by decide)).1 rfl

/-- Counterexample for C8 as stated: the self-service path deactivates the
sample admin account, clearing its active flag. -/
theorem admin_self_deactivation_counterexample :
    sampleAdmin.role = Role.admin ∧ sampleAdmin.isActive = true ∧
    (deactivateSelf [sampleAdmin] 1).1 = .okDeactivated ∧
    (deactivateSelf [sampleAdmin] 1).2
      = [{ sampleAdmin with isActive := false }] := by
  decide

/-- Witness for C9 (amended): no-such-account and active-account-wrong-
password logins return the identical InvalidCredentials failure. -/
theorem login_enumeration_resistance_witness :
    login [sampleActiveUser] "NOSUCH" "pw" false
      = .failure 400 "Invalid credentials" ∧
    login [sampleActiveUser] "V9" "wrong" false
      = .failure 400 "Invalid credentials" :=
  login_enumeration_resistance [sampleActiveUser] [sampleActiveUser]
    "NOSUCH" "pw" "V9" "wrong" false false sampleActiveUser
    (by decide) (by decide) (by decide) (by decide)

/-- Counterexample for C9 as stated: with an inactive account the
wrong-password case returns the distinct account-deleted failure, so the
two failure cases are distinguishable. -/
theorem login_reveals_inactive_counterexample :
    login [sampleInactiveUser] "V1" "wrong" false
      = .failure 403 "Account has been deleted" ∧
    login [sampleInactiveUser] "NOSUCH" "wrong" false
      = .failure 400 "Invalid credentials" ∧
    login [sampleInactiveUser] "V1" "wrong" false
      ≠ login [sampleInactiveUser] "NOSUCH" "wrong" false := by
  decide

end Theorems

end MernVoting
